import Mathlib

/-!
Verification of the lexical-analysis and structural-recovery pipeline of the
closure-linter port (JavaScript sources under src/).  The definitions below are
a shallow embedding, translated from the JavaScript sources:

* `src/common/tokens.js`      — token model (`TokenType`, `Tok`, `isAnyType`);
* `src/common/tokenizer.js`   — generic regex-driven tokenizer
  (`tokenizeFile`, `tokenizeLine`, `createNormalToken`, `addToken`);
* `src/lib/javascripttokens.js`  — JavaScript token kinds and kind lists;
* `src/lib/tokenutil.js`      — navigation utilities (`compare`,
  `customSearch`, `search`, `searchExcept`, `searchUntil`);
* `src/unnamed/part_005` (ecmametadatapass) — the context pass
  (`EcmaMetaDataPass`, `popContext`, `popContextType`, `processToken`);
* `src/unnamed/part_004` (statetracker) and `src/unnamed/part_003`
  (javascriptstatetracker) — the scope/state tracker;
* `src/lib/runner.js`         — pass orchestration (`executePass`).

Conventions of the embedding:

* JavaScript run-time failures (throwing `ParseError`, `TypeError` from a
  property access on `undefined`/`null`, `ReferenceError` from reading an
  unbound identifier) are modelled with `Except JsErr`; evaluation order of
  the JavaScript statements is preserved by the `do`-sequencing.
* The doubly-linked token chain is modelled as a `List Tok` in chain order;
  "the tokens after t" is the list suffix after t, and a forward search that
  starts at `token.next` receives exactly that suffix.
* Mutable token metadata is modelled by accumulating, for every processed
  token, its finished metadata record; later reads of
  `someToken.metadata` look the record up in that accumulator.
-/

namespace CL

/-- Token kinds: the three language-neutral kinds of `src/common/tokens.js`
(`TokenType`) together with the JavaScript kinds of
`src/lib/javascripttokens.js` (`JavaScriptTokenType`).  The string each enum
member carries in the source is given by `typeStr` below. -/
inductive TokenType where
  | NORMAL | WHITESPACE | BLANK_LINE
  | NUMBER | START_SINGLE_LINE_COMMENT | START_BLOCK_COMMENT | START_DOC_COMMENT
  | END_BLOCK_COMMENT | END_DOC_COMMENT | COMMENT
  | SINGLE_QUOTE_STRING_START | SINGLE_QUOTE_STRING_END
  | DOUBLE_QUOTE_STRING_START | DOUBLE_QUOTE_STRING_END | STRING_TEXT
  | START_BLOCK | END_BLOCK | START_PAREN | END_PAREN
  | START_BRACKET | END_BRACKET | REGEX | FUNCTION_DECLARATION | FUNCTION_NAME
  | START_PARAMETERS | PARAMETERS | END_PARAMETERS | SEMICOLON
  | DOC_FLAG | DOC_INLINE_FLAG | DOC_START_BRACE | DOC_END_BRACE | DOC_PREFIX_TOK
  | SIMPLE_LVALUE | KEYWORD | OPERATOR | IDENTIFIER
deriving DecidableEq

/-- The string value of each enum member, exactly as written in
`src/common/tokens.js` and `src/lib/javascripttokens.js`.  (The JavaScript
enums are plain string-valued dictionaries; `_.contains` on a dictionary
compares against these strings, see `underscoreContainsValue`.) -/
def typeStr : TokenType → String
  | .NORMAL => "normal"
  | .WHITESPACE => "whitespace"
  | .BLANK_LINE => "blank line"
  | .NUMBER => "number"
  | .START_SINGLE_LINE_COMMENT => "//"
  | .START_BLOCK_COMMENT => "/*"
  | .START_DOC_COMMENT => "/**"
  | .END_BLOCK_COMMENT => "*/"
  | .END_DOC_COMMENT => "doc */"
  | .COMMENT => "comment"
  | .SINGLE_QUOTE_STRING_START => "'string"
  | .SINGLE_QUOTE_STRING_END => "string'"
  | .DOUBLE_QUOTE_STRING_START => "\"string"
  | .DOUBLE_QUOTE_STRING_END => "string\""
  | .STRING_TEXT => "string"
  | .START_BLOCK => "\x7b"
  | .END_BLOCK => "\x7d"
  | .START_PAREN => "("
  | .END_PAREN => ")"
  | .START_BRACKET => "["
  | .END_BRACKET => "]"
  | .REGEX => "/regex/"
  | .FUNCTION_DECLARATION => "function(...)"
  | .FUNCTION_NAME => "function functionName(...)"
  | .START_PARAMETERS => "startparams("
  | .PARAMETERS => "pa,ra,ms"
  | .END_PARAMETERS => ")endparams"
  | .SEMICOLON => ";"
  | .DOC_FLAG => "@flag"
  | .DOC_INLINE_FLAG => "\x7b@flag ...\x7d"
  | .DOC_START_BRACE => "doc \x7b"
  | .DOC_END_BRACE => "doc \x7d"
  | .DOC_PREFIX_TOK => "comment prefix: * "
  | .SIMPLE_LVALUE => "lvalue="
  | .KEYWORD => "keyword"
  | .OPERATOR => "operator"
  | .IDENTIFIER => "identifier"

/-- `JavaScriptTokenType.COMMENT_TYPES` (src/lib/javascripttokens.js:51). -/
def COMMENT_TYPES : List TokenType :=
  [.START_SINGLE_LINE_COMMENT, .COMMENT, .START_BLOCK_COMMENT,
   .START_DOC_COMMENT, .END_BLOCK_COMMENT, .END_DOC_COMMENT,
   .DOC_START_BRACE, .DOC_END_BRACE, .DOC_FLAG, .DOC_INLINE_FLAG,
   .DOC_PREFIX_TOK]

/-- `JavaScriptTokenType.NON_CODE_TYPES` (src/lib/javascripttokens.js:74):
the comment kinds together with whitespace and blank lines. -/
def NON_CODE_TYPES : List TokenType :=
  COMMENT_TYPES ++ [.WHITESPACE, .BLANK_LINE]

/-- `JavaScriptTokenType.EXPRESSION_ENDER_TYPES`
(src/lib/javascripttokens.js:88). -/
def EXPRESSION_ENDER_TYPES : List TokenType :=
  [.NORMAL, .IDENTIFIER, .NUMBER, .SIMPLE_LVALUE, .END_BRACKET,
   .END_PAREN, .END_BLOCK, .SINGLE_QUOTE_STRING_END,
   .DOUBLE_QUOTE_STRING_END]

/-- `JavaScriptTokenType.UNARY_OPERATORS` (src/lib/javascripttokens.js:79). -/
def UNARY_OPERATORS : List (List Char) :=
  ["!".data, "new".data, "delete".data, "typeof".data, "void".data]

/-- `JavaScriptTokenType.UNARY_OK_OPERATORS` (src/lib/javascripttokens.js:81). -/
def UNARY_OK_OPERATORS : List (List Char) :=
  ["--".data, "++".data, "-".data, "+".data] ++ UNARY_OPERATORS

/-- `JavaScriptTokenType.UNARY_POST_OPERATORS`
(src/lib/javascripttokens.js:84). -/
def UNARY_POST_OPERATORS : List (List Char) :=
  ["--".data, "++".data]

/-- A token (`Token` of src/common/tokens.js, `JavaScriptToken` of
src/lib/javascripttokens.js).  The `string` field is kept as `List Char`.
The `previous`/`next` links are represented by the position of the token in
the chain list; the `line`, `values`, `origLineNumber`, `isDeleted` and
`attachedObject` fields are not needed by any claim and are omitted.
`startIndex` is assigned by `Tokenizer._addToken` (src/common/tokenizer.js:158),
`lineNumber` by `tokenizeFile`. -/
structure Tok where
  type : TokenType
  str : List Char
  lineNumber : Nat
  startIndex : Nat
deriving DecidableEq

/-- `JavaScriptToken.prototype.isKeyword` (src/lib/javascripttokens.js:106). -/
def Tok.isKeyword (t : Tok) (k : List Char) : Bool :=
  t.type == .KEYWORD && t.str == k

/-- `JavaScriptToken.prototype.isOperator` (src/lib/javascripttokens.js:110). -/
def Tok.isOperator (t : Tok) (op : List Char) : Bool :=
  t.type == .OPERATOR && t.str == op

/-- `JavaScriptToken.prototype.isCode` (src/lib/javascripttokens.js:124):
true when the token type is not one of `NON_CODE_TYPES`. -/
def Tok.isCode (t : Tok) : Bool :=
  !(NON_CODE_TYPES.contains t.type)

/-- `Token.prototype.isType` (src/common/tokens.js:65). -/
def Tok.isType (t : Tok) (ty : TokenType) : Bool :=
  t.type == ty

/-- JavaScript run-time failures raised by the embedded code.
`parseError` is the `ParseError` class of the metadata pass
(src/unnamed/part_005:20), carrying the token at which it was raised (the
pass raises it with `this._token`, which is `null` at end of file) and the
optional message.  `referenceError` models reading an unbound identifier;
`typeError` models calling or dereferencing `undefined`/`null`. -/
inductive JsErr where
  | parseError (token : Option Tok) (message : String)
  | referenceError (name : String)
  | typeError (message : String)
deriving DecidableEq

/-- `Token.prototype.isAnyType` (src/common/tokens.js:69).  The source body is
`return _.contains(tokenTypes, token.type);` — it reads the identifier
`token`, which is bound nowhere in the module scope of tokens.js (the method
parameter is `tokenTypes` and the receiver would be `this`), so every call
throws `ReferenceError: token is not defined` before looking at the receiver
or the argument.  `JavaScriptToken` copies this method unchanged
(src/lib/javascripttokens.js:103). -/
def Tok.isAnyType (_t : Tok) (_tokenTypes : List TokenType) :
    Except JsErr Bool :=
  .error (.referenceError "token")

/-- `compare` (src/lib/tokenutil.js:16): negative when token1 is before
token2, by line number and then by start index. -/
def tokenCompare (token1 token2 : Tok) : Int :=
  if token2.lineNumber != token1.lineNumber then
    (token1.lineNumber : Int) - (token2.lineNumber : Int)
  else
    (token1.startIndex : Int) - (token2.startIndex : Int)

/-- `customSearch` (src/lib/tokenutil.js:41).  The JavaScript loop starts at
`startToken` and on each iteration inspects `token.next` (or
`token.previous` when searching in reverse); here `succs` is the list of
tokens the loop inspects, in inspection order (the successors of the start
token, or its predecessors reversed).  `func` and the optional `endFunc`
may themselves throw (they call `isAnyType` in the derived searches), hence
the `Except`.  `distance` is `opt_distance` (`none` = unbounded). -/
def customSearch (func : Tok → Except JsErr Bool)
    (endFunc : Option (Tok → Except JsErr Bool)) (distance : Option Int) :
    List Tok → Except JsErr (Option Tok)
  | [] => .ok none
  | t :: rest => do
    match distance with
    | some d =>
      if d > 0 then do
        if (← func t) then
          return some t
        match endFunc with
        | some g =>
          if (← g t) then
            return none
          else
            customSearch func endFunc (some (d - 1)) rest
        | none => customSearch func endFunc (some (d - 1)) rest
      else
        return none
    | none => do
      if (← func t) then
        return some t
      match endFunc with
      | some g =>
        if (← g t) then
          return none
        else
          customSearch func endFunc none rest
      | none => customSearch func endFunc none rest

/-- `searchExcept` (src/lib/tokenutil.js:79): first token whose type is not
among `tokenTypes`.  The predicate passed to `customSearch` is
`function(token) {return !token.isAnyType(tokenTypes)}`. -/
def searchExcept (tokenTypes : List TokenType) (succs : List Tok) :
    Except JsErr (Option Tok) :=
  customSearch (fun t => do return !(← t.isAnyType tokenTypes)) none none succs

/-- `search` (src/lib/tokenutil.js:126): first token whose type is among
`tokenTypes`. -/
def search (tokenTypes : List TokenType) (succs : List Tok) :
    Except JsErr (Option Tok) :=
  customSearch (fun t => t.isAnyType tokenTypes) none none succs

/-- `searchUntil` (src/lib/tokenutil.js:102): first token of a type in
`tokenTypes` before any token of a type in `endTypes`. -/
def searchUntil (tokenTypes endTypes : List TokenType) (succs : List Tok) :
    Except JsErr (Option Tok) :=
  customSearch (fun t => t.isAnyType tokenTypes)
    (some fun t => t.isAnyType endTypes) none succs

/-- The lexer modes, `JavaScriptModes` (src/unnamed/part_006:12). -/
inductive JsMode where
  | TEXT_MODE | SINGLE_QUOTE_STRING_MODE | DOUBLE_QUOTE_STRING_MODE
  | BLOCK_COMMENT_MODE | DOC_COMMENT_MODE | DOC_COMMENT_LEX_SPACES_MODE
  | LINE_COMMENT_MODE | PARAMETER_MODE | FUNCTION_MODE
deriving DecidableEq

/-- The string value of each mode, exactly as in src/unnamed/part_006:12. -/
def modeStr : JsMode → String
  | .TEXT_MODE => "text"
  | .SINGLE_QUOTE_STRING_MODE => "single_quote_string"
  | .DOUBLE_QUOTE_STRING_MODE => "double_quote_string"
  | .BLOCK_COMMENT_MODE => "block_comment"
  | .DOC_COMMENT_MODE => "doc_comment"
  | .DOC_COMMENT_LEX_SPACES_MODE => "doc_comment_spaces"
  | .LINE_COMMENT_MODE => "line_comment"
  | .PARAMETER_MODE => "parameter"
  | .FUNCTION_MODE => "function"

/-- A token as built inside one line, before `_addToken` assigns the line
number and start index. -/
structure RawTok where
  str : List Char
  type : TokenType
deriving DecidableEq

/-- The outcome of one successful matcher trial: the matched substring
(`match[0]`), the declared token type (`matcher.type`) and the mode to
switch to (`matcher.resultMode`; `none` keeps the current mode, as in
`this.mode = matcher.resultMode || this.mode`, src/common/tokenizer.js:108). -/
structure StepRes where
  matched : List Char
  type : TokenType
  resultMode : Option JsMode
deriving DecidableEq

/-- One trial of the whole ordered matcher list of the current mode
(the `_.find(this.matchers[this.mode], ...)` body,
src/common/tokenizer.js:88-116): given the current mode, the remaining text
of the line (`string.substr(index)`), and whether we are at the start of the
line (`index == 0`, which `lineStart` matchers require), either no matcher
matches at offset 0 (`none`) or the first matching matcher wins. -/
def Step : Type :=
  JsMode → List Char → Bool → Option StepRes

/-- A mode in which no matcher can match the empty string, so every match in
that mode consumes at least one character. -/
def NonEmptyMatchMode (step : Step) (m : JsMode) : Prop :=
  ∀ s atStart r, step m s atStart = some r → r.matched ≠ []

/-- Faithfulness of an abstract `Step` to the JavaScript matcher semantics:

1. a successful regex match at `match.index == 0` consumed a (possibly
   empty) prefix of the remaining text;
2. a matcher that matched the empty string switches to a mode whose
   matchers all consume at least one character, so the scanning loop of
   src/common/tokenizer.js:87 still makes progress on the next iteration.

The matcher table of src/unnamed/part_006 satisfies both.  Exactly one of
its matchers can match the empty string: `ANYTHING = /.*/`
(src/unnamed/part_006:115), the sole LINE_COMMENT_MODE matcher, whose dot
excludes line terminators and whose star permits zero repetitions, so it
yields an empty match whenever the remaining line text begins with a
carriage return (a mid-line `\r` survives the trailing-only rstrip of
src/common/tokenizer.js:75).  That matcher always switches to TEXT_MODE
(src/unnamed/part_006:317), and every TEXT_MODE matcher requires at least
one character (each pattern contains a mandatory character: a slash, quote,
brace, paren, bracket, digit + space or dot + digit for the number pattern,
an identifier character, an operator, a keyword, whitespace, or the
semicolon).  The matchers of all other modes also contain a mandatory
character, so no other empty match can arise. -/
def ValidStep (step : Step) : Prop :=
  (∀ m s atStart r, step m s atStart = some r →
    ∃ t, s = r.matched ++ t) ∧
  (∀ m s atStart r, step m s atStart = some r → r.matched = [] →
    ∃ m', r.resultMode = some m' ∧ NonEmptyMatchMode step m')

/-- The trivial matcher table (no matcher ever matches): a legal instantiation
of the generic `Tokenizer`, under which every character of a non-blank line
is accumulated into normal tokens. -/
def emptyStep : Step := fun _ _ _ => none

theorem emptyStep_valid : ValidStep emptyStep := by
  constructor
  · intro m s atStart r h
    simp [emptyStep] at h
  · intro m s atStart r h
    simp [emptyStep] at h

/-- ECMA whitespace test for the class `\s`, restricted to the ASCII range
(the class also holds several Unicode space characters that no claim
exercises). -/
def isJsSpace (c : Char) : Bool :=
  c == ' ' || c == '\t' || c == '\n' || c == '\r' || c == '\x0b' || c == '\x0c'

/-- The leading character class of `NESTED_IDENTIFIER`
(src/unnamed/part_006:163). -/
def isIdentStart (c : Char) : Bool :=
  c.isAlpha || c == '_' || c == '$'

/-- The continuation character class of `NESTED_IDENTIFIER`
(`IDENTIFIER_CHAR` plus the repeated dot, src/unnamed/part_006:40,163). -/
def isIdentChar (c : Char) : Bool :=
  c.isAlpha || c.isDigit || c == '_' || c == '$' || c == '.'

/-- The ECMA line terminators, which the dot of a regex does not match. -/
def isLineTerminator (c : Char) : Bool :=
  c == '\n' || c == '\r' || c == '\u2028' || c == '\u2029'

/-- The fragment of the JavaScript matcher table (`JAVASCRIPT_MATCHERS`,
src/unnamed/part_006:222,315) exercised by the file `"//\rx"`, as a
concrete `Step`:

* TEXT_MODE, in the relative order of the source table: the end-of-line
  comment matcher `/\/\/$/` (START_SINGLE_LINE_COMMENT, no mode switch),
  then `/\/\//` (START_SINGLE_LINE_COMMENT, switching to
  LINE_COMMENT_MODE), then the whitespace run `/\s+/` and the identifier
  run `[a-zA-Z_$][A-Za-z0-9_$.]*`;
* LINE_COMMENT_MODE: the single matcher `ANYTHING = /.*/` (COMMENT,
  switching back to TEXT_MODE), whose dot excludes line terminators and
  whose star permits zero repetitions, so it matches the EMPTY string
  whenever the remaining text begins with a carriage return.

The omitted matchers fire at no scan position reached on that file: the
doc- and block-comment starts need a star after the slash, the regex
literal fails its trailing lookahead after `//` (the following text is a
carriage return and an identifier, none of the permitted follow tokens),
and the remaining matchers need a quote, brace, paren, bracket, digit,
operator, keyword or semicolon character, none of which occurs at a
reached position.  On that run this step therefore returns exactly what
the full ordered table returns. -/
def jsLineCommentStep : Step := fun m s _atStart =>
  match m with
  | .TEXT_MODE =>
    if s = "//".data then
      some ⟨"//".data, .START_SINGLE_LINE_COMMENT, none⟩
    else if "//".data.isPrefixOf s then
      some ⟨"//".data, .START_SINGLE_LINE_COMMENT, some .LINE_COMMENT_MODE⟩
    else
      match s with
      | [] => none
      | c :: rest =>
        if isJsSpace c then
          some ⟨c :: rest.takeWhile isJsSpace, .WHITESPACE, none⟩
        else if isIdentStart c then
          some ⟨c :: rest.takeWhile isIdentChar, .IDENTIFIER, none⟩
        else
          none
  | .LINE_COMMENT_MODE =>
    some ⟨s.takeWhile (fun c => !isLineTerminator c), .COMMENT, some .TEXT_MODE⟩
  | _ => none

/-- The call `_s.rstrip` on the line (src/common/tokenizer.js:75): drop the
trailing characters belonging to the strip set. -/
def rstripNRF (cs : List Char) : List Char :=
  (cs.reverse.dropWhile (fun c => c == '\n' || c == '\r' || c == '\x0c')).reverse

/-- The newline split of the file (src/common/tokenizer.js:41): JavaScript string split,
so `"".split` gives one empty line and a trailing newline yields a final
empty line. -/
def splitOnNl : List Char → List (List Char)
  | [] => [[]]
  | c :: rest =>
    if c == '\n' then
      [] :: splitOnNl rest
    else
      match splitOnNl rest with
      | [] => [[c]]
      | l :: ls => (c :: l) :: ls

/-- `_.contains(obj, value)` applied to a dictionary, as in
`_.contains(this.defaultTypes, mode)` (src/common/tokenizer.js:146).
Underscore `contains` on a non-array object tests membership among the
dictionary VALUES (`_.values(obj)`), not its keys; the comparison is the
JavaScript `===` between the mode string and the stored type strings. -/
def underscoreContainsValue (dict : List (JsMode × TokenType)) (m : JsMode) :
    Bool :=
  dict.any (fun p => typeStr p.2 == modeStr m)

/-- JavaScript dictionary key lookup `dict[mode]`
(`this.defaultTypes[mode]`, src/common/tokenizer.js:147); `none` models the
`undefined` result for an absent key. -/
def jsDictGet (dict : List (JsMode × TokenType)) (m : JsMode) :
    Option TokenType :=
  (dict.find? (fun p => p.1 == m)).map (·.2)

/-- `JavaScriptTokenizer.JAVASCRIPT_DEFAULT_TYPES` (src/unnamed/part_006:341):
unmatched text inside the two documentation-comment modes is declared to
default to the COMMENT type. -/
def JAVASCRIPT_DEFAULT_TYPES : List (JsMode × TokenType) :=
  [(.DOC_COMMENT_MODE, .COMMENT), (.DOC_COMMENT_LEX_SPACES_MODE, .COMMENT)]

/-- `Tokenizer.prototype._createNormalToken` (src/common/tokenizer.js:143):
the type starts as NORMAL and is replaced by the declared default
type only when `_.contains(this.defaultTypes, mode)` holds — which, since
underscore `contains` inspects the dictionary values rather than its keys,
demands the mode string to equal one of the stored type strings.  When the
guard somehow held, `this.defaultTypes[mode]` would be read; an absent key
would yield `undefined`, modelled by falling back to NORMAL. -/
def createNormalToken (defaultTypes : List (JsMode × TokenType)) (mode : JsMode)
    (s : List Char) : RawTok :=
  let ty :=
    if underscoreContainsValue defaultTypes mode then
      (jsDictGet defaultTypes mode).getD .NORMAL
    else
      .NORMAL
  ⟨s, ty⟩

/-- Emission of the accumulated run of unmatched characters
(`if (normalToken) { this._addToken(this._createNormalToken(...)); }`,
src/common/tokenizer.js:96-101 and 127-130): nothing is emitted for an empty
accumulator. -/
def flushNormal (defaultTypes : List (JsMode × TokenType)) (mode : JsMode)
    (acc : List Char) : List RawTok :=
  if acc = [] then [] else [createNormalToken defaultTypes mode acc]

/-- The scanning loop of `Tokenizer.prototype._tokenizeLine`
(src/common/tokenizer.js:85-130) over the stripped line text.  `rem` is the
unscanned suffix, `atStart` is `index == 0`, `acc` the accumulated unmatched
characters.  The `fuel` argument bounds the number of loop iterations and
makes the recursion structural; it is instantiated with twice the line
length plus one, which suffices for every `ValidStep`, because an empty
match is always followed by a consuming iteration (it switches to a mode
whose matches are nonempty).  Running out of fuel — possible only for a
step outside `ValidStep` whose empty matches let the JavaScript loop spin
without progress — stops the scan early. -/
def tokenizeLineCore (step : Step) (defaultTypes : List (JsMode × TokenType)) :
    Nat → JsMode → Bool → List Char → List Char → List RawTok × JsMode
  | _, m, _, [], acc => (flushNormal defaultTypes m acc, m)
  | 0, m, _, _ :: _, acc => (flushNormal defaultTypes m acc, m)
  | fuel + 1, m, atStart, c :: rest, acc =>
    match step m (c :: rest) atStart with
    | some r =>
      let m' := r.resultMode.getD m
      let rem' := (c :: rest).drop r.matched.length
      let (toks, mFinal) := tokenizeLineCore step defaultTypes fuel m' false rem' []
      (flushNormal defaultTypes m acc ++ (⟨r.matched, r.type⟩ : RawTok) :: toks,
        mFinal)
    | none => tokenizeLineCore step defaultTypes fuel m false rest (acc ++ [c])

/-- `Tokenizer.prototype._tokenizeLine` (src/common/tokenizer.js:74): strip
trailing line terminators, emit a single blank-line token for an empty
result, otherwise run the matcher loop.  Returns the emitted tokens of the
line along with the mode left for the next line. -/
def tokenizeLine (step : Step) (defaultTypes : List (JsMode × TokenType))
    (m : JsMode) (line : List Char) : List RawTok × JsMode :=
  let stripped := rstripNRF line
  if stripped = [] then
    ([⟨[], .BLANK_LINE⟩], m)
  else
    tokenizeLineCore step defaultTypes (2 * stripped.length + 1) m true
      stripped []

/-- `Tokenizer.prototype._addToken` (src/common/tokenizer.js:158) restricted
to one line: each token of the line receives the running `startIndex`
(`this._startIndex`, reset to 0 at the start of the line,
src/common/tokenizer.js:77) and the current line number. -/
def assignIndices (lineNo : Nat) : Nat → List RawTok → List Tok
  | _, [] => []
  | idx, r :: rs =>
    ⟨r.type, r.str, lineNo, idx⟩ :: assignIndices lineNo (idx + r.str.length) rs

/-- The per-line iteration of `Tokenizer.prototype.tokenizeFile`
(src/common/tokenizer.js:41-44): lines are processed in order, the mode
persists across lines, `this._lineNumber` counts from 1.  Returns the token
block of each line. -/
def tokenizeLinesAux (step : Step) (defaultTypes : List (JsMode × TokenType)) :
    JsMode → Nat → List (List Char) → List (List Tok)
  | _, _, [] => []
  | m, n, l :: ls =>
    let (raws, m') := tokenizeLine step defaultTypes m l
    assignIndices n 0 raws :: tokenizeLinesAux step defaultTypes m' (n + 1) ls

/-- `Tokenizer.prototype.tokenizeFile` (src/common/tokenizer.js:35), with the
emitted chain grouped by source line. -/
def tokenizeFileBlocks (step : Step) (defaultTypes : List (JsMode × TokenType))
    (startingMode : JsMode) (file : List Char) : List (List Tok) :=
  tokenizeLinesAux step defaultTypes startingMode 1 (splitOnNl file)

/-- `Tokenizer.prototype.tokenizeFile` (src/common/tokenizer.js:35): the full
token chain of the file, in chain order. -/
def tokenizeFile (step : Step) (defaultTypes : List (JsMode × TokenType))
    (startingMode : JsMode) (file : List Char) : List Tok :=
  (tokenizeFileBlocks step defaultTypes startingMode file).flatten

/-- Concatenation of the substrings of a list of raw tokens. -/
def concatRaw (toks : List RawTok) : List Char :=
  (toks.map (·.str)).flatten

/-- Concatenation of the substrings of a list of tokens. -/
def concatToks (toks : List Tok) : List Char :=
  (toks.map (·.str)).flatten

/-- `EcmaContext.Type` (src/unnamed/part_005:116). -/
inductive CtxType where
  | ROOT | BLOCK | CASE_BLOCK | FOR_GROUP_BLOCK | IMPLIED_BLOCK | INDEX
  | ARRAY_LITERAL | OBJECT_LITERAL | LITERAL_ELEMENT | TERNARY_TRUE
  | TERNARY_FALSE | SWITCH | COMMENT | DOC | STATEMENT | GROUP
  | PARAMETERS | VAR
deriving DecidableEq

/-- `EcmaContext.Type.BLOCK_TYPES` (src/unnamed/part_005:177). -/
def BLOCK_TYPES : List CtxType :=
  [.ROOT, .BLOCK, .CASE_BLOCK, .FOR_GROUP_BLOCK, .IMPLIED_BLOCK]

/-- An `EcmaContext` (src/unnamed/part_005:34).  The parent link is the
position in the context stack (`PassState.top`/`PassState.stack`), children
and `endToken` (which no code path of the pass reads back) are not tracked.
`startLastCode` records the value that `startToken.metadata.lastCode`
receives when the start token is processed — the pass reads it through
`result.startToken.metadata.lastCode` (src/unnamed/part_005:382,396). -/
structure Ctx where
  type : CtxType
  startToken : Option Tok
  startLastCode : Option Tok
deriving DecidableEq

/-- The operator arity constants of `EcmaMetaData`
(src/unnamed/part_005:246-249). -/
inductive OpType where
  | UNARY | UNARY_POST | BINARY | TERNARY
deriving DecidableEq

/-- `EcmaMetaData` (src/unnamed/part_005:186).  The `aliasedSymbol` and
`isAliasDefinition` fields are only written by the alias pass and are
omitted. -/
structure MetaData where
  lastCode : Option Tok
  context : Option Ctx
  operatorType : Option OpType
  isImpliedSemicolon : Bool
  isImpliedBlock : Bool
  isImpliedBlockClose : Bool
deriving DecidableEq

/-- `EcmaMetaData.prototype.isUnaryPostOperator` (src/unnamed/part_005:242). -/
def MetaData.isUnaryPostOperator (md : MetaData) : Bool :=
  md.operatorType == some .UNARY_POST

/-- `EcmaMetaDataPass._createMetadata` (src/unnamed/part_005:285): a fresh
metadata record with all fields null/false. -/
def createMetadata : MetaData :=
  ⟨none, none, none, false, false, false⟩

/-- The state of `EcmaMetaDataPass`: the current context (`this._context`)
with its chain of ancestors (nearest parent first), the last code token
(`this._lastCode`), and the metadata attached to the already-processed
tokens (`token.metadata`, most recent first), which later tokens read
back. -/
structure PassState where
  top : Ctx
  stack : List Ctx
  lastCode : Option Tok
  mds : List (Tok × MetaData)
deriving DecidableEq

/-- `EcmaMetaDataPass.prototype.reset` (src/unnamed/part_005:264): a single
ROOT context (created with `this._token` and `this._context` null), no last
code token. -/
def resetState : PassState :=
  ⟨⟨.ROOT, none, none⟩, [], none, []⟩

/-- `EcmaMetaDataPass.prototype._addContext` (src/unnamed/part_005:295):
push a new context whose parent is the current context.  The new context
starts at `this._token`; its start token will receive
`metadata.lastCode = this._lastCode` (src/unnamed/part_005:544), recorded
here as `startLastCode`. -/
def addContext (contextType : CtxType) (t : Option Tok) (s : PassState) :
    PassState :=
  {s with top := ⟨contextType, t, s.lastCode⟩, stack := s.top :: s.stack}

/-- Look up `someToken.metadata` among the already-processed tokens. -/
def mdOf (s : PassState) (t : Tok) : Option MetaData :=
  (s.mds.find? (fun p => p.1 == t)).map (·.2)

/-- `EcmaMetaDataPass.prototype._popContext` (src/unnamed/part_005:305): pop
the current context (its `endToken` is set, which nothing reads back); when
the popped context has no parent, `ParseError(this._token)` is thrown. -/
def popContext (curTok : Option Tok) (top : Ctx) :
    List Ctx → Except JsErr (Ctx × Ctx × List Ctx)
  | [] => .error (.parseError curTok "")
  | p :: rest => .ok (top, p, rest)

/-- `EcmaMetaDataPass.prototype._popContextType` (src/unnamed/part_005:325):
pop until a context of one of the `stopTypes` has been popped; each
iteration pops first (possibly raising `ParseError`) and then checks the
popped context. -/
def popContextType (curTok : Option Tok) (stopTypes : List CtxType)
    (top : Ctx) : List Ctx → Except JsErr (Ctx × Ctx × List Ctx)
  | [] => .error (.parseError curTok "")
  | p :: rest =>
    if stopTypes.contains top.type then
      .ok (top, p, rest)
    else
      popContextType curTok stopTypes p rest

/-- `EcmaMetaDataPass.prototype._endStatement` (src/unnamed/part_005:338):
pop up through the current STATEMENT; when the new current context is an
IMPLIED_BLOCK, flag the current token as closing it and pop once more. -/
def endStatement (curTok : Option Tok) (md : MetaData) (top : Ctx)
    (stack : List Ctx) : Except JsErr (MetaData × Ctx × List Ctx) := do
  let (_, top1, stack1) ← popContextType curTok [.STATEMENT] top stack
  if top1.type == .IMPLIED_BLOCK then
    let (_, top2, stack2) ← popContext curTok top1 stack1
    return ({md with isImpliedBlockClose := true}, top2, stack2)
  else
    return (md, top1, stack1)

/-- The case/default loop of `_processContext` (src/unnamed/part_005:463-469):
pop up to, but not including, the enclosing SWITCH.  The loop condition
reads `this._context.parent.type` (a `TypeError` when the parent is null);
after a pop, a null parent raises the dedicated `ParseError`. -/
def popToSwitch (curTok : Option Tok) (top : Ctx) :
    List Ctx → Except JsErr (Ctx × List Ctx)
  | [] => .error (.typeError "cannot read type of null parent")
  | p :: rest =>
    if p.type == .SWITCH then
      .ok (top, p :: rest)
    else
      match rest with
      | [] => .error (.parseError curTok
          "Encountered case/default statement without switch statement")
      | q :: rest' => popToSwitch curTok p (q :: rest')

/-- The comma loop of `_processContext` (src/unnamed/part_005:493-499): pop
until the current context is one of the element-bearing types. -/
def popToComma (curTok : Option Tok) (top : Ctx) :
    List Ctx → Except JsErr (Ctx × List Ctx)
  | [] =>
    if [CtxType.VAR, .ARRAY_LITERAL, .OBJECT_LITERAL, .STATEMENT,
        .PARAMETERS, .GROUP].contains top.type then
      .ok (top, [])
    else
      .error (.parseError curTok "")
  | p :: rest =>
    if [CtxType.VAR, .ARRAY_LITERAL, .OBJECT_LITERAL, .STATEMENT,
        .PARAMETERS, .GROUP].contains top.type then
      .ok (top, p :: rest)
    else
      popToComma curTok p rest

/-- `EcmaMetaDataPass.prototype._statementCouldEndInContext`
(src/unnamed/part_005:594): true in a STATEMENT or VAR context, or in a
TERNARY_FALSE context whose parent is STATEMENT or VAR (the parent is read
only in the TERNARY_FALSE case, a `TypeError` when it is null). -/
def statementCouldEndInContext (top : Ctx) (stack : List Ctx) :
    Except JsErr Bool := do
  if [CtxType.STATEMENT, .VAR].contains top.type then
    return true
  if top.type == .TERNARY_FALSE then
    match stack with
    | [] => .error (.typeError "cannot read type of null parent")
    | p :: _ => return ([CtxType.STATEMENT, .VAR].contains p.type)
  else
    return false

/-- `EcmaMetaDataPass.prototype._getOperatorType` (src/unnamed/part_005:626). -/
def getOperatorType (t : Tok) (lastCode : Option Tok) : OpType :=
  if t.str == "?".data then
    .TERNARY
  else if UNARY_OPERATORS.contains t.str then
    .UNARY
  else
    match lastCode with
    | none => .UNARY
    | some lc =>
      if lc.type == .END_BLOCK then
        .UNARY
      else if UNARY_POST_OPERATORS.contains t.str &&
          EXPRESSION_ENDER_TYPES.contains lc.type then
        .UNARY_POST
      else if UNARY_OK_OPERATORS.contains t.str &&
          !(EXPRESSION_ENDER_TYPES.contains lc.type) &&
          !(UNARY_POST_OPERATORS.contains lc.str) then
        .UNARY
      else
        .BINARY

/-- `EcmaMetaDataPass.prototype._processContext` (src/unnamed/part_005:353).
`t` is the current token, `succs` the tokens after it in the chain (for the
forward `searchExcept` calls), `md` the metadata record of the current token
(branches may set `isImpliedBlock` on it).  Returns the explicit return
value of the JavaScript function (`none` models `undefined`) together with
the updated metadata and state. -/
def processContext (t : Tok) (succs : List Tok) (md : MetaData)
    (s : PassState) : Except JsErr (Option Ctx × MetaData × PassState) := do
  let s :=
    if BLOCK_TYPES.contains s.top.type then
      match s.stack with
      | [] => addContext .STATEMENT (some t) s
      | p :: _ =>
        if p.type != .SWITCH then addContext .STATEMENT (some t) s else s
    else if s.top.type == .ARRAY_LITERAL then
      addContext .LITERAL_ELEMENT (some t) s
    else s
  if t.type == .START_PAREN then
    if (s.lastCode.map (·.isKeyword "for".data)).getD false then
      return (none, md, addContext .FOR_GROUP_BLOCK (some t) s)
    else
      return (none, md, addContext .GROUP (some t) s)
  else if t.type == .END_PAREN then
    let (result, top1, stack1) ←
      popContextType (some t) [.GROUP, .FOR_GROUP_BLOCK] s.top s.stack
    let s := {s with top := top1, stack := stack1}
    match result.startLastCode with
    | some keyworkToken =>
      if ["if".data, "for".data, "while".data].contains keyworkToken.str then
        match (← searchExcept NON_CODE_TYPES succs) with
        | none => .error (.typeError "cannot read type of null nextCode")
        | some nextCode =>
          if nextCode.type != .START_BLOCK then
            let preKeywordToken ←
              match mdOf s keyworkToken with
              | none => .error (.typeError "keyword token has no metadata")
              | some kmd => pure kmd.lastCode
            let isDoWhile ←
              match preKeywordToken with
              | some pk =>
                if pk.type == .END_BLOCK then
                  match mdOf s pk with
                  | none => .error (.typeError "end-block token has no metadata")
                  | some pkmd =>
                    match pkmd.context with
                    | none => .error (.typeError "metadata context is null")
                    | some c =>
                      match c.startLastCode with
                      | none =>
                        .error (.typeError "cannot read string of null lastCode")
                      | some dlc => pure (dlc.str == "do".data)
                else
                  pure false
              | none => pure false
            if !isDoWhile then
              return (some result, {md with isImpliedBlock := true},
                addContext .IMPLIED_BLOCK (some t) s)
            else
              return (some result, md, s)
          else
            return (some result, md, s)
      else
        return (some result, md, s)
    | none => return (some result, md, s)
  else if t.type == .KEYWORD && t.str == "else".data then
    match (← searchExcept NON_CODE_TYPES succs) with
    | none => .error (.typeError "cannot read type of null nextCode")
    | some nextCode =>
      if nextCode.type != .START_BLOCK &&
          (nextCode.type != .KEYWORD || nextCode.str != "if".data) then
        return (none, {md with isImpliedBlock := true},
          addContext .IMPLIED_BLOCK (some t) s)
      else
        return (none, md, s)
  else if t.type == .START_PARAMETERS then
    return (none, md, addContext .PARAMETERS (some t) s)
  else if t.type == .END_PARAMETERS then
    let (result, top1, stack1) ← popContextType (some t) [.PARAMETERS] s.top s.stack
    return (some result, md, {s with top := top1, stack := stack1})
  else if t.type == .START_BRACKET then
    if (s.lastCode.map (fun lc => EXPRESSION_ENDER_TYPES.contains lc.type)).getD
        false then
      return (none, md, addContext .INDEX (some t) s)
    else
      return (none, md, addContext .ARRAY_LITERAL (some t) s)
  else if t.type == .END_BRACKET then
    let (result, top1, stack1) ←
      popContextType (some t) [.INDEX, .ARRAY_LITERAL] s.top s.stack
    return (some result, md, {s with top := top1, stack := stack1})
  else if t.type == .START_BLOCK then
    match s.lastCode with
    | none => .error (.typeError "cannot read type of null lastCode")
    | some lc =>
      let condColon ←
        if lc.isOperator ":".data then
          match mdOf s lc with
          | none => .error (.typeError "lastCode has no metadata")
          | some lcmd =>
            match lcmd.context with
            | none => .error (.typeError "metadata context is null")
            | some c => pure (c.type == CtxType.CASE_BLOCK)
        else
          pure false
      if [TokenType.END_PAREN, .END_PARAMETERS].contains lc.type ||
          lc.isKeyword "else".data || lc.isKeyword "do".data ||
          lc.isKeyword "try".data || lc.isKeyword "finally".data ||
          condColon then
        return (none, md, addContext .BLOCK (some t) s)
      else
        return (none, md, addContext .OBJECT_LITERAL (some t) s)
  else if t.type == .END_BLOCK then
    let (context, top1, stack1) ←
      popContextType (some t) [.BLOCK, .OBJECT_LITERAL] s.top s.stack
    if top1.type == .SWITCH then
      let (c2, top2, stack2) ← popContext (some t) top1 stack1
      return (some c2, md, {s with top := top2, stack := stack2})
    else
      return (some context, md, {s with top := top1, stack := stack1})
  else if t.isKeyword "switch".data then
    return (none, md, addContext .SWITCH (some t) s)
  else if t.type == .KEYWORD &&
      (t.str == "case".data || t.str == "default".data) &&
      s.top.type != .OBJECT_LITERAL then
    let (top1, stack1) ← popToSwitch (some t) s.top s.stack
    return (none, md, {s with top := top1, stack := stack1})
  else if t.isOperator "?".data then
    return (none, md, addContext .TERNARY_TRUE (some t) s)
  else if t.isOperator ":".data then
    if s.top.type == .OBJECT_LITERAL then
      return (none, md, addContext .LITERAL_ELEMENT (some t) s)
    else if s.top.type == .TERNARY_TRUE then
      let (_, top1, stack1) ← popContext (some t) s.top s.stack
      return (none, md,
        addContext .TERNARY_FALSE (some t) {s with top := top1, stack := stack1})
    else
      match s.stack with
      | [] => .error (.typeError "cannot read type of null parent")
      | p :: _ =>
        if s.top.type == .TERNARY_FALSE && p.type == .TERNARY_TRUE then
          let (_, top1, stack1) ← popContext (some t) s.top s.stack
          let (_, top2, stack2) ← popContext (some t) top1 stack1
          return (none, md,
            addContext .TERNARY_FALSE (some t)
              {s with top := top2, stack := stack2})
        else if p.type == .SWITCH then
          return (none, md, addContext .CASE_BLOCK (some t) s)
        else
          return (none, md, s)
  else if t.isKeyword "var".data then
    return (none, md, addContext .VAR (some t) s)
  else if t.isOperator ",".data then
    let (top1, stack1) ← popToComma (some t) s.top s.stack
    return (none, md, {s with top := top1, stack := stack1})
  else if t.type == .SEMICOLON then
    let (md', top1, stack1) ← endStatement (some t) md s.top s.stack
    return (none, md', {s with top := top1, stack := stack1})
  else
    return (none, md, s)

/-- `EcmaMetaDataPass.prototype._processToken` (src/unnamed/part_005:539):
create the metadata record, run `_processContext`, fill in context, last
code and operator arity, then run the implied-semicolon detection, whose
very first step for a non-semicolon token is
`tokenUtil.searchExcept(token, TokenType.NON_CODE_TYPES)`
(src/unnamed/part_005:553).  The local `isImpiedBlock` of the source
compares the context object itself against a type string with `==`
(src/unnamed/part_005:556); the object converts to a `Context(...)` string,
so the comparison is constantly false. -/
def processToken (t : Tok) (succs : List Tok) (s : PassState) :
    Except JsErr PassState := do
  let (res, md1, s1) ← processContext t succs createMetadata s
  let context := res.getD s1.top
  let md2 := {md1 with context := some context, lastCode := s1.lastCode}
  let md3 :=
    if t.type == .OPERATOR then
      {md2 with operatorType := some (getOperatorType t md2.lastCode)}
    else
      md2
  if t.type != .SEMICOLON then
    let nextCode? ← searchExcept NON_CODE_TYPES succs
    let isImpiedBlock := false
    let isLastCodeInLine := t.isCode &&
      (match nextCode? with
       | none => true
       | some nc => nc.lineNumber != t.lineNumber)
    let isContinuedIdentifier := t.type == .IDENTIFIER &&
      t.str.getLast? == some '.'
    let isContinuedOperator := t.type == .OPERATOR && !md3.isUnaryPostOperator
    let isContinuedDot := t.str == ".".data
    let nextCodeIsOperator := (nextCode?.map (·.type == .OPERATOR)).getD false
    let nextCodeIsDot := (nextCode?.map (·.str == ".".data)).getD false
    let isEndOfBlock := t.type == .END_BLOCK &&
      context.type != .OBJECT_LITERAL
    let isMultilineString := t.type == .STRING_TEXT
    let isContinuedVarDecl := t.isKeyword "var".data &&
      (match nextCode? with
       | some nc => [TokenType.IDENTIFIER, .SIMPLE_LVALUE].contains nc.type &&
           t.lineNumber < nc.lineNumber
       | none => false)
    let nextCodeIsBlock := (nextCode?.map (·.type == .START_BLOCK)).getD false
    if isLastCodeInLine then
      let couldEnd ← statementCouldEndInContext s1.top s1.stack
      if couldEnd && !isMultilineString && !isEndOfBlock &&
          !isContinuedVarDecl && !isContinuedIdentifier &&
          !isContinuedOperator && !isContinuedDot && !nextCodeIsDot &&
          !nextCodeIsOperator && !isImpiedBlock && !nextCodeIsBlock then
        let md4 := {md3 with isImpliedSemicolon := true}
        let (md5, top2, stack2) ← endStatement (some t) md4 s1.top s1.stack
        return {s1 with top := top2, stack := stack2, mds := (t, md5) :: s1.mds}
      else
        return {s1 with mds := (t, md3) :: s1.mds}
    else
      return {s1 with mds := (t, md3) :: s1.mds}
  else
    return {s1 with mds := (t, md3) :: s1.mds}

/-- The token loop of `EcmaMetaDataPass.prototype.process`
(src/unnamed/part_005:513-521): process each token in chain order, updating
`this._lastCode` after each code token. -/
def processAll : List Tok → PassState → Except JsErr PassState
  | [], s => .ok s
  | t :: rest, s => do
    let s' ← processToken t rest s
    let s'' := if t.isCode then {s' with lastCode := some t} else s'
    processAll rest s''

/-- The end-of-file pop of `EcmaMetaDataPass.prototype.process`
(src/unnamed/part_005:523-531): `_popContextType([ROOT])` runs with
`this._token` null inside a try/catch that swallows exactly `ParseError`
("Ignore the popped-to-root error") and rethrows anything else. -/
def finalPop (s : PassState) : Except JsErr Unit :=
  match popContextType none [.ROOT] s.top s.stack with
  | .ok _ => .ok ()
  | .error (.parseError _ _) => .ok ()
  | .error e => .error e

/-- `EcmaMetaDataPass.prototype.process` (src/unnamed/part_005:511): the
token loop followed by the swallowed final pop; returns the final pass
state. -/
def ecmaProcess (chain : List Tok) : Except JsErr PassState := do
  let s ← processAll chain resetState
  let _ ← finalPop s
  return s

/-- The state of the scope/state tracker (`StateTracker.prototype.reset`,
src/unnamed/part_004:654, plus the JavaScript-specific fields of
`JavaScriptStateTracker.prototype.reset`, src/unnamed/part_003:48).  The
depths are JavaScript numbers (they are incremented and decremented without
bounds checks), the stacks hold the tokens pushed onto them.  Fields the
claims never touch (`_functionsByName`, comment and doc-comment tracking,
`_variablesInScope`, ...) are omitted. -/
structure TrackerState where
  scopeDepth : Int
  blockStack : List Tok
  blockDepth : Int
  parentDepth : Int
  functionStack : List Tok
deriving DecidableEq

/-- A tracker object as it is after construction
(`StateTracker = function(opt_docFlag) { this._docFlag = opt_docFlag; }`,
src/unnamed/part_004:646): no depth field has been initialised yet; the
numeric values chosen here are irrelevant because `reset` throws before any
of them is read. -/
def initialTrackerState : TrackerState :=
  ⟨0, [], 0, 0, []⟩

/-- `StateTracker.prototype.parenthesesDepth` (src/unnamed/part_004:804). -/
def parenthesesDepth (s : TrackerState) : Int :=
  s.parentDepth

/-- `StateTracker.prototype.blockDepth` (src/unnamed/part_004:813). -/
def trackerBlockDepth (s : TrackerState) : Int :=
  s.blockDepth

/-- `StateTracker.prototype.functionDepth` (src/unnamed/part_004:822). -/
def functionDepth (s : TrackerState) : Int :=
  s.functionStack.length

/-- `JavaScriptStateTracker.prototype.inTopLevel` (src/unnamed/part_003:64).
The source body is `return this._scopeDepth == this.paranthesesDepth();` —
the method name is misspelled (`paranthesesDepth`), and neither
`JavaScriptStateTracker.prototype` nor `StateTracker.prototype` defines a
property of that name (the parenthesis-depth accessor is spelled
`parenthesesDepth`, src/unnamed/part_004:804).  The property access yields
`undefined` and the call throws
`TypeError: this.paranthesesDepth is not a function` before the comparison
is ever made, for every tracker state. -/
def jsInTopLevel (_s : TrackerState) : Except JsErr Bool :=
  .error (.typeError "this.paranthesesDepth is not a function")

/-- `JavaScriptStateTracker.prototype.reset` (src/unnamed/part_003:48).  The
body sets `this._scopeDepth = 0` and `this._blockStack = []`, then runs
`stateTracker.StateTracker.reset.call(this)` — but `reset` is looked up as
a static property of the `StateTracker` constructor function, while the
method only exists on `StateTracker.prototype` (src/unnamed/part_004:654).
The lookup yields `undefined` and reading `.call` on it throws a
`TypeError`, so reset never completes. -/
def jsStateTrackerReset (s : TrackerState) : Except JsErr TrackerState :=
  let _mutated : TrackerState := {s with scopeDepth := 0, blockStack := []}
  .error (.typeError "cannot read call of undefined StateTracker.reset")

/-- `JavaScriptStateTracker.prototype.handleToken` (src/unnamed/part_003:128).
The first guard is `if (token.type = Type.START_BLOCK)` — an assignment, not
a comparison: it overwrites the type of every token with START_BLOCK and its
truthy value pushes every token onto `this._blockStack`.  The subsequent
IDENTIFIER/END_BLOCK tests are then always false.  Finally
`stateTracker.StateTracker.handleToken.call(this, ...)` performs the same
static-versus-prototype lookup slip as `reset` (`handleToken` exists only on
`StateTracker.prototype`, src/unnamed/part_004:1022), so every call throws a
`TypeError` after mutating the token and the block stack. -/
def jsStateTrackerHandleToken (s : TrackerState) (t : Tok) :
    Except JsErr (TrackerState × Tok) :=
  let t' : Tok := {t with type := .START_BLOCK}
  let _s' : TrackerState := {s with blockStack := s.blockStack ++ [t']}
  .error (.typeError "cannot read call of undefined StateTracker.handleToken")

/-- The token loop of `CheckerBase.prototype._executePass`
(src/lib/runner.js:289-307), restricted to the state-tracker calls: the lint
pass function and `handleAfterToken` are never reached because
`handleToken` always throws. -/
def jsExecLoop : List Tok → TrackerState → Except JsErr TrackerState
  | [], s => .ok s
  | t :: rest, s => do
    let (s', _) ← jsStateTrackerHandleToken s t
    jsExecLoop rest s'

/-- `CheckerBase.prototype._executePass` (src/lib/runner.js:285): reset the
tracker, then feed it every token of the chain. -/
def jsExecutePass (chain : List Tok) : Except JsErr TrackerState := do
  let s ← jsStateTrackerReset initialTrackerState
  jsExecLoop chain s

/-- `DocComment.prototype.hasFlag` (src/unnamed/part_004:459), with the
flags of the comment represented by their `flagType` strings. -/
def hasFlag (flags : List (List Char)) (flagType : List Char) : Bool :=
  flags.contains flagType

/-- The `SKIP_TYPES` of `DocComment.prototype.getTargetToken`
(src/unnamed/part_004:546): whitespace, blank lines and open-parens. -/
def SKIP_TYPES : List TokenType :=
  [.WHITESPACE, .BLANK_LINE, .START_PAREN]

/-- The `TARGET_TYPES` of `DocComment.prototype.getTargetToken`
(src/unnamed/part_004:547). -/
def TARGET_TYPES : List TokenType :=
  [.FUNCTION_NAME, .IDENTIFIER, .SIMPLE_LVALUE]

/-- The scanning loop of `DocComment.prototype.getTargetToken`
(src/unnamed/part_004:552-589), over the tokens after the comment end
token.  Falling off the chain returns `undefined`, modelled as `none`.  The
two `customSearch` calls use the inline predicate
`function(t) { return !_.contains(Type.NON_CODE_TYPES, t.type); }`, which
does not go through the broken `isAnyType`. -/
def getTargetTokenLoop : List Tok → Except JsErr (Option Tok)
  | [] => .ok none
  | t :: rest => do
    if TARGET_TYPES.contains t.type then
      return some t
    if t.isKeyword "var".data then
      let nextCodeToken ← customSearch
        (fun tk => pure (!(NON_CODE_TYPES.contains tk.type))) none none rest
      match nextCodeToken with
      | some nc =>
        if nc.isType .SIMPLE_LVALUE then return some nc else return none
      | none => return none
    else if t.type == .FUNCTION_DECLARATION then
      let nextCodeToken ← customSearch
        (fun tk => pure (!(NON_CODE_TYPES.contains tk.type))) none none rest
      match nextCodeToken with
      | some nc =>
        if nc.isType .FUNCTION_NAME then return some nc else return none
      | none => return none
    else if !(SKIP_TYPES.contains t.type) then
      return none
    else
      getTargetTokenLoop rest

/-- `DocComment.prototype.getTargetToken` (src/unnamed/part_004:540): null
for fileoverview comments, otherwise the forward scan from
`this.endToken.next` (here: `succs`, the tokens after the comment end
token). -/
def getTargetToken (flags : List (List Char)) (succs : List Tok) :
    Except JsErr (Option Tok) :=
  if hasFlag flags "fileoverview".data then
    .ok none
  else
    getTargetTokenLoop succs

/-- The scanning rule asserted by the claim about `getTargetToken` (spec
wording: the comment is attached to the target immediately following it "by
forward-scanning past whitespace/comments/blank-lines only").  Stated from
the words of the claim, for comparison against `getTargetToken`, which is
translated from the source. -/
def getTargetTokenClaimScan : List Tok → Option Tok
  | [] => none
  | t :: rest =>
    if TARGET_TYPES.contains t.type then
      some t
    else if t.type == .WHITESPACE || t.type == .BLANK_LINE ||
        COMMENT_TYPES.contains t.type then
      getTargetTokenClaimScan rest
    else
      none

/-- The tokens of one line tile it: each token starts at the running sum of
the lengths of the tokens before it (`i` is the running sum). -/
def tiled : Nat → List Tok → Prop
  | _, [] => True
  | i, t :: ts => t.startIndex = i ∧ tiled (i + t.str.length) ts

/-- The token chain the JavaScript tokenizer produces for the file
`"a=1\nb=2\n"`: the simple-lvalue lookahead matches `a`, the operator
matcher matches `=`, and the trailing newline yields a final blank line.
The digits are unmatched text and therefore NORMAL tokens: the ported
number pattern (src/unnamed/part_006:44) keeps the literal spaces of the
Python verbose regex, so its integer alternative only matches digits
followed by a space, which `1` at end of line is not. -/
def chainC2 : List Tok :=
  [⟨.SIMPLE_LVALUE, "a".data, 1, 0⟩, ⟨.OPERATOR, "=".data, 1, 1⟩,
   ⟨.NORMAL, "1".data, 1, 2⟩, ⟨.SIMPLE_LVALUE, "b".data, 2, 0⟩,
   ⟨.OPERATOR, "=".data, 2, 1⟩, ⟨.NORMAL, "2".data, 2, 2⟩,
   ⟨.BLANK_LINE, [], 3, 0⟩]

/-- The token chain the JavaScript tokenizer produces for the file
`"if (x) foo();"`. -/
def chainC4 : List Tok :=
  [⟨.KEYWORD, "if".data, 1, 0⟩, ⟨.WHITESPACE, " ".data, 1, 2⟩,
   ⟨.START_PAREN, "(".data, 1, 3⟩, ⟨.IDENTIFIER, "x".data, 1, 4⟩,
   ⟨.END_PAREN, ")".data, 1, 5⟩, ⟨.WHITESPACE, " ".data, 1, 6⟩,
   ⟨.IDENTIFIER, "foo".data, 1, 7⟩, ⟨.START_PAREN, "(".data, 1, 10⟩,
   ⟨.END_PAREN, ")".data, 1, 11⟩, ⟨.SEMICOLON, ";".data, 1, 12⟩]

/-! Helper lemmas about the tokenizer. -/

theorem concatRaw_nil : concatRaw [] = [] := rfl

theorem concatRaw_cons (x : RawTok) (l : List RawTok) :
    concatRaw (x :: l) = x.str ++ concatRaw l := by
  simp [concatRaw]

theorem concatRaw_append (xs ys : List RawTok) :
    concatRaw (xs ++ ys) = concatRaw xs ++ concatRaw ys := by
  simp [concatRaw]

theorem concatRaw_flushNormal (defaults : List (JsMode × TokenType))
    (m : JsMode) (acc : List Char) :
    concatRaw (flushNormal defaults m acc) = acc := by
  unfold flushNormal
  split
  next h => simp [concatRaw, h]
  next => simp [concatRaw, createNormalToken]

theorem tokenizeLineCore_concat (step : Step) (hv : ValidStep step)
    (defaults : List (JsMode × TokenType)) :
    ∀ (fuel : Nat) (m : JsMode) (atStart : Bool) (rem acc : List Char),
      (2 * rem.length + 1 ≤ fuel ∨
        (2 * rem.length ≤ fuel ∧ NonEmptyMatchMode step m)) →
      concatRaw (tokenizeLineCore step defaults fuel m atStart rem acc).1 =
        acc ++ rem := by
  intro fuel
  induction fuel with
  | zero =>
    intro m atStart rem acc h
    have hrem : rem = [] := by
      rcases h with h | ⟨h, _⟩
      · omega
      · cases rem with
        | nil => rfl
        | cons c cs => simp at h
    subst hrem
    simp [tokenizeLineCore, concatRaw_flushNormal]
  | succ fuel ih =>
    intro m atStart rem acc h
    match rem with
    | [] => simp [tokenizeLineCore, concatRaw_flushNormal]
    | c :: rest =>
      cases hstep : step m (c :: rest) atStart with
      | none =>
        have hnext : 2 * rest.length + 1 ≤ fuel ∨
            (2 * rest.length ≤ fuel ∧ NonEmptyMatchMode step m) := by
          rcases h with h | ⟨h, hne⟩
          · left
            simp at h
            omega
          · refine Or.inr ⟨?_, hne⟩
            simp at h
            omega
        simp only [tokenizeLineCore, hstep]
        rw [ih _ _ _ _ hnext]
        simp
      | some r =>
        obtain ⟨t, ht⟩ := hv.1 _ _ _ _ hstep
        have hdrop : (c :: rest).drop r.matched.length = t := by
          rw [ht]
          exact List.drop_left _ _
        have hll : rest.length + 1 = r.matched.length + t.length := by
          have := congrArg List.length ht
          simpa using this
        by_cases hemp : r.matched = []
        · obtain ⟨m2, hm2, hnem⟩ := hv.2 _ _ _ _ hstep hemp
          have hteq : t.length = rest.length + 1 := by
            rw [hemp] at hll
            simpa using hll.symm
          have hnext : 2 * t.length + 1 ≤ fuel ∨
              (2 * t.length ≤ fuel ∧
                NonEmptyMatchMode step (r.resultMode.getD m)) := by
            refine Or.inr ⟨?_, ?_⟩
            · rcases h with h | ⟨h, hne⟩
              · simp at h
                omega
              · exact absurd hemp (hne _ _ _ hstep)
            · rw [hm2, Option.getD_some]
              exact hnem
          simp only [tokenizeLineCore, hstep, hdrop]
          rw [concatRaw_append, concatRaw_cons, concatRaw_flushNormal,
            ih _ _ _ _ hnext]
          simp [ht]
        · have hm1 : 1 ≤ r.matched.length := by
            cases hmm : r.matched with
            | nil => exact absurd hmm hemp
            | cons a l => simp
          have hnext : 2 * t.length + 1 ≤ fuel ∨
              (2 * t.length ≤ fuel ∧
                NonEmptyMatchMode step (r.resultMode.getD m)) := by
            left
            rcases h with h | ⟨h, _⟩
            · simp at h
              omega
            · simp at h
              omega
          simp only [tokenizeLineCore, hstep, hdrop]
          rw [concatRaw_append, concatRaw_cons, concatRaw_flushNormal,
            ih _ _ _ _ hnext]
          simp [ht]

theorem tokenizeLine_concat (step : Step) (hv : ValidStep step)
    (defaults : List (JsMode × TokenType)) (m : JsMode) (line : List Char) :
    concatRaw (tokenizeLine step defaults m line).1 = rstripNRF line := by
  unfold tokenizeLine
  dsimp only
  split
  next h => simp [concatRaw, h]
  next =>
    exact tokenizeLineCore_concat step hv defaults _ _ _ _ _ (Or.inl le_rfl)

theorem concatToks_assignIndices (n : Nat) :
    ∀ (rs : List RawTok) (i : Nat),
      concatToks (assignIndices n i rs) = concatRaw rs := by
  intro rs
  induction rs with
  | nil => intro i; rfl
  | cons r rs ih =>
    intro i
    simp [assignIndices, concatToks, concatRaw] at *
    exact ih _

theorem mem_assignIndices (n : Nat) :
    ∀ (rs : List RawTok) (i : Nat) (t : Tok), t ∈ assignIndices n i rs →
      t.lineNumber = n ∧ i ≤ t.startIndex := by
  intro rs
  induction rs with
  | nil =>
    intro i t h
    simp [assignIndices] at h
  | cons r rs ih =>
    intro i t h
    simp only [assignIndices, List.mem_cons] at h
    rcases h with h | h
    · subst h
      exact ⟨rfl, le_rfl⟩
    · obtain ⟨h1, h2⟩ := ih _ _ h
      exact ⟨h1, by omega⟩

theorem pairwise_le_assignIndices (n : Nat) :
    ∀ (rs : List RawTok) (i : Nat),
      (assignIndices n i rs).Pairwise (fun a b => tokenCompare a b ≤ 0) := by
  intro rs
  induction rs with
  | nil =>
    intro i
    simp [assignIndices]
  | cons r rs ih =>
    intro i
    simp only [assignIndices]
    refine List.Pairwise.cons ?_ (ih _)
    intro b hb
    obtain ⟨hline, hge⟩ := mem_assignIndices n rs _ b hb
    simp only [tokenCompare, hline]
    simp
    omega

theorem tokenizeLinesAux_line_ge (step : Step)
    (defaults : List (JsMode × TokenType)) :
    ∀ (ls : List (List Char)) (m : JsMode) (n : Nat),
      ∀ t ∈ (tokenizeLinesAux step defaults m n ls).flatten,
        n ≤ t.lineNumber := by
  intro ls
  induction ls with
  | nil =>
    intro m n t ht
    simp [tokenizeLinesAux] at ht
  | cons l ls ih =>
    intro m n t ht
    rcases htl : tokenizeLine step defaults m l with ⟨raws, m2⟩
    simp only [tokenizeLinesAux, htl, List.flatten_cons] at ht
    rcases List.mem_append.mp ht with h | h
    · have := (mem_assignIndices n raws 0 t h).1
      omega
    · have := ih m2 (n + 1) t h
      omega

theorem tokenizeLinesAux_mono (step : Step)
    (defaults : List (JsMode × TokenType)) :
    ∀ (ls : List (List Char)) (m : JsMode) (n : Nat),
      ((tokenizeLinesAux step defaults m n ls).flatten).Pairwise
        (fun a b => tokenCompare a b ≤ 0) := by
  intro ls
  induction ls with
  | nil =>
    intro m n
    simp [tokenizeLinesAux]
  | cons l ls ih =>
    intro m n
    rcases htl : tokenizeLine step defaults m l with ⟨raws, m2⟩
    simp only [tokenizeLinesAux, htl, List.flatten_cons]
    rw [List.pairwise_append]
    refine ⟨pairwise_le_assignIndices n raws 0, ih m2 (n + 1), ?_⟩
    intro a ha b hb
    have hla := (mem_assignIndices n raws 0 a ha).1
    have hlb := tokenizeLinesAux_line_ge step defaults ls m2 (n + 1) b hb
    have hne : b.lineNumber ≠ a.lineNumber := by omega
    simp only [tokenCompare, hne]
    simp
    omega

theorem tiled_assignIndices (n : Nat) :
    ∀ (rs : List RawTok) (i : Nat), tiled i (assignIndices n i rs) := by
  intro rs
  induction rs with
  | nil =>
    intro i
    simp [assignIndices, tiled]
  | cons r rs ih =>
    intro i
    exact ⟨rfl, ih _⟩

theorem tiled_filter_line (step : Step)
    (defaults : List (JsMode × TokenType)) :
    ∀ (ls : List (List Char)) (m : JsMode) (n0 n : Nat),
      tiled 0 (((tokenizeLinesAux step defaults m n0 ls).flatten).filter
        (fun t => t.lineNumber == n)) := by
  intro ls
  induction ls with
  | nil =>
    intro m n0 n
    simp [tokenizeLinesAux, tiled]
  | cons l ls ih =>
    intro m n0 n
    rcases htl : tokenizeLine step defaults m l with ⟨raws, m'⟩
    simp only [tokenizeLinesAux, htl, List.flatten_cons, List.filter_append]
    by_cases hn : n = n0
    · subst hn
      have h1 : (assignIndices n 0 raws).filter
          (fun t => t.lineNumber == n) = assignIndices n 0 raws := by
        apply List.filter_eq_self.mpr
        intro t ht
        have := (mem_assignIndices n raws 0 t ht).1
        simp [this]
      have h2 : ((tokenizeLinesAux step defaults m' (n + 1) ls).flatten).filter
          (fun t => t.lineNumber == n) = [] := by
        apply List.filter_eq_nil_iff.mpr
        intro t ht
        have := tokenizeLinesAux_line_ge step defaults ls m' (n + 1) t ht
        simp
        omega
      rw [h1, h2, List.append_nil]
      exact tiled_assignIndices n raws 0
    · have h1 : (assignIndices n0 0 raws).filter
          (fun t => t.lineNumber == n) = [] := by
        apply List.filter_eq_nil_iff.mpr
        intro t ht
        have := (mem_assignIndices n0 raws 0 t ht).1
        simp
        omega
      rw [h1, List.nil_append]
      exact ih m' (n0 + 1) n

theorem popContextType_parseError (curTok : Option Tok)
    (stopTypes : List CtxType) :
    ∀ (stack : List Ctx) (top : Ctx),
      (∀ c ∈ top :: stack, stopTypes.contains c.type = false) →
      popContextType curTok stopTypes top stack =
        .error (.parseError curTok "") := by
  intro stack
  induction stack with
  | nil =>
    intro top h
    simp [popContextType]
  | cons p rest ih =>
    intro top h
    have htop := h top (List.mem_cons_self _ _)
    simp only [popContextType, htop, Bool.false_eq_true, if_false]
    exact ih p (fun c hc => h c (List.mem_cons_of_mem _ hc))

theorem popContextType_ok_or_parseError (curTok : Option Tok)
    (stopTypes : List CtxType) :
    ∀ (stack : List Ctx) (top : Ctx),
      (∃ r, popContextType curTok stopTypes top stack = .ok r) ∨
      popContextType curTok stopTypes top stack =
        .error (.parseError curTok "") := by
  intro stack
  induction stack with
  | nil =>
    intro top
    right
    simp [popContextType]
  | cons p rest ih =>
    intro top
    by_cases htop : top.type ∈ stopTypes
    · left
      exact ⟨(top, p, rest), by simp [popContextType, htop]⟩
    · have htop' : stopTypes.contains top.type = false := by
        simpa using htop
      simp only [popContextType, htop', Bool.false_eq_true, if_false]
      exact ih p

theorem finalPop_ok (s : PassState) : finalPop s = .ok () := by
  unfold finalPop
  rcases popContextType_ok_or_parseError none [.ROOT] s.stack s.top with
    ⟨r, hr⟩ | hr
  · rw [hr]
  · rw [hr]

theorem ecmaProcess_of_processAll (chain : List Tok) (s : PassState)
    (h : processAll chain resetState = .ok s) : ecmaProcess chain = .ok s := by
  unfold ecmaProcess
  rw [h]
  show ((finalPop s).bind fun _ => Except.ok s) = Except.ok s
  rw [finalPop_ok s]
  rfl

theorem getTargetTokenLoop_skip (x : Tok) (l : List Tok)
    (hx : SKIP_TYPES.contains x.type = true) :
    getTargetTokenLoop (x :: l) = getTargetTokenLoop l := by
  have hx3 : x.type = .WHITESPACE ∨ x.type = .BLANK_LINE ∨
      x.type = .START_PAREN := by
    simpa [SKIP_TYPES] using hx
  rcases hx3 with h | h | h <;>
    simp [getTargetTokenLoop, h, Tok.isKeyword, TARGET_TYPES, SKIP_TYPES]

theorem getTargetTokenLoop_skips (skips : List Tok) (l : List Tok)
    (hsk : ∀ x ∈ skips, SKIP_TYPES.contains x.type = true) :
    getTargetTokenLoop (skips ++ l) = getTargetTokenLoop l := by
  induction skips with
  | nil => rfl
  | cons x xs ih =>
    rw [List.cons_append,
      getTargetTokenLoop_skip x _ (hsk x (List.mem_cons_self _ _)),
      ih (fun y hy => hsk y (List.mem_cons_of_mem _ hy))]

theorem getTargetTokenLoop_target (t : Tok) (rest : List Tok)
    (ht : TARGET_TYPES.contains t.type = true) :
    getTargetTokenLoop (t :: rest) = .ok (some t) := by
  have ht' : t.type ∈ TARGET_TYPES := by simpa using ht
  simp [getTargetTokenLoop, ht']
  rfl

theorem getTargetTokenLoop_stop (t : Tok) (rest : List Tok)
    (h1 : SKIP_TYPES.contains t.type = false)
    (h2 : TARGET_TYPES.contains t.type = false)
    (h3 : t.isKeyword "var".data = false)
    (h4 : (t.type == .FUNCTION_DECLARATION) = false) :
    getTargetTokenLoop (t :: rest) = .ok none := by
  have h1' : t.type ∉ SKIP_TYPES := by simpa using h1
  have h2' : t.type ∉ TARGET_TYPES := by simpa using h2
  have h4' : t.type ≠ .FUNCTION_DECLARATION := by simpa using h4
  simp [getTargetTokenLoop, h1', h2', h3, h4']
  rfl

/-- Every TEXT_MODE match of `jsLineCommentStep` consumes at least one
character. -/
theorem jsLineCommentStep_text_nonempty :
    NonEmptyMatchMode jsLineCommentStep .TEXT_MODE := by
  intro s atStart r h
  simp only [jsLineCommentStep] at h
  split_ifs at h with h1 h2
  · cases h; simp
  · cases h; simp
  · cases s with
    | nil => simp at h
    | cons c rest =>
      dsimp only at h
      split_ifs at h with h3 h4
      · cases h; simp
      · cases h; simp

/-- Every match of `jsLineCommentStep` is a prefix of the remaining text. -/
theorem jsLineCommentStep_prefix (m : JsMode) (s : List Char) (atStart : Bool)
    (r : StepRes) (h : jsLineCommentStep m s atStart = some r) :
    ∃ t, s = r.matched ++ t := by
  cases m <;> simp only [jsLineCommentStep] at h
  case TEXT_MODE =>
    split_ifs at h with h1 h2
    · cases h; exact ⟨[], by simp [h1]⟩
    · obtain ⟨t, ht⟩ := List.isPrefixOf_iff_prefix.mp h2
      cases h; exact ⟨t, ht.symm⟩
    · cases s with
      | nil => simp at h
      | cons c rest =>
        dsimp only at h
        split_ifs at h with h3 h4
        · cases h
          exact ⟨rest.dropWhile isJsSpace,
            by simp [List.takeWhile_append_dropWhile]⟩
        · cases h
          exact ⟨rest.dropWhile isIdentChar,
            by simp [List.takeWhile_append_dropWhile]⟩
  case LINE_COMMENT_MODE =>
    cases h
    exact ⟨s.dropWhile (fun c => !isLineTerminator c),
      by simp [List.takeWhile_append_dropWhile]⟩
  all_goals simp at h

/-- `jsLineCommentStep` is a valid matcher step: the sole empty match (the
`ANYTHING` matcher of LINE_COMMENT_MODE at a leading carriage return)
switches back to TEXT_MODE, whose matchers all consume a character. -/
theorem jsLineCommentStep_valid : ValidStep jsLineCommentStep := by
  constructor
  · exact jsLineCommentStep_prefix
  · intro m s atStart r h hemp
    cases m
    case TEXT_MODE =>
      exact absurd hemp (jsLineCommentStep_text_nonempty s atStart r h)
    case LINE_COMMENT_MODE =>
      simp only [jsLineCommentStep] at h
      cases h
      exact ⟨.TEXT_MODE, rfl, jsLineCommentStep_text_nonempty⟩
    all_goals simp [jsLineCommentStep] at h

/-! The claim theorems. -/

/-- Claim C1, counterexample.  The claim states that concatenating, in chain
order, the substring of every token produced by `Tokenizer.tokenizeFile`
reproduces the input source text exactly.  This fails: `tokenizeFile`
splits the file on the newline character (src/common/tokenizer.js:41) and no
token ever contains it, so for the one-character file consisting of a single
newline the tokens are two empty blank-line tokens (one per side of the
split) whose concatenation is empty.  The matcher table is never consulted
on blank lines, so the trivial table exhibits the failure. -/
theorem spec_c1_lossless_counterexample :
    concatToks (tokenizeFile emptyStep [] .TEXT_MODE "\n".data) ≠ "\n".data := by
  decide

/-- Claim C1, amended.  Lexing is lossless only line by line and up to line
terminators: for every valid matcher step, the tokens emitted for each
input line concatenate, in chain order, exactly to that line with its
trailing carriage-return/form-feed characters stripped; the newline
separators between lines are reproduced by no token. -/
theorem spec_c1_line_tiling (step : Step) (hv : ValidStep step)
    (defaults : List (JsMode × TokenType)) (m0 : JsMode) (file : List Char) :
    List.Forall₂ (fun block line => concatToks block = rstripNRF line)
      (tokenizeFileBlocks step defaults m0 file) (splitOnNl file) := by
  unfold tokenizeFileBlocks
  suffices h : ∀ (ls : List (List Char)) (m : JsMode) (n : Nat),
      List.Forall₂ (fun block line => concatToks block = rstripNRF line)
        (tokenizeLinesAux step defaults m n ls) ls from h _ _ _
  intro ls
  induction ls with
  | nil =>
    intro m n
    simp [tokenizeLinesAux]
  | cons l ls ih =>
    intro m n
    rcases htl : tokenizeLine step defaults m l with ⟨raws, m'⟩
    simp only [tokenizeLinesAux, htl]
    refine List.Forall₂.cons ?_ (ih m' (n + 1))
    have hc := tokenizeLine_concat step hv defaults m l
    rw [htl] at hc
    rw [concatToks_assignIndices]
    exact hc

/-- Witness for the amended claim C1, at the line-comment matcher fragment
and the file `"//\rx"`, whose run goes through an EMPTY match of the
`ANYTHING` matcher at the mid-line carriage return. -/
theorem spec_c1_line_tiling_witness :
    List.Forall₂ (fun block line => concatToks block = rstripNRF line)
      (tokenizeFileBlocks jsLineCommentStep [] .TEXT_MODE "//\rx".data)
      (splitOnNl "//\rx".data) :=
  spec_c1_line_tiling jsLineCommentStep jsLineCommentStep_valid []
    .TEXT_MODE "//\rx".data

/-- Claim C2.  The claim states that for the file made of the two lines
`a=1` and `b=2`, the context pass produces two STATEMENT contexts under
ROOT, closing each via the implied-semicolon flag on the tokens `1` and `2`.
The code does not do this: for every non-semicolon token, `_processToken`
first calls `tokenUtil.searchExcept(token, TokenType.NON_CODE_TYPES)`
(src/unnamed/part_005:553), whose predicate invokes `Token.isAnyType`
(src/common/tokens.js:69), whose body reads the unbound identifier `token`
instead of `this` and therefore throws a ReferenceError.  The pass crashes
while processing the very first token of this file. -/
theorem spec_c2_context_pass_crashes :
    ecmaProcess chainC2 = .error (.referenceError "token") := by
  rfl

/-- Claim C3.  A pop request that exhausts the context stack before finding a
requested context type raises a structural ParseError carrying the token at
which it occurred (`this._token`); the final pop to ROOT at end of file
always returns normally because the try/catch of `process` swallows exactly
ParseError; hence `process` returns normally whenever the token loop
completes. -/
theorem spec_c3_pop_error_semantics :
    (∀ (curTok : Option Tok) (stopTypes : List CtxType) (top : Ctx)
        (stack : List Ctx),
      (∀ c ∈ top :: stack, stopTypes.contains c.type = false) →
      popContextType curTok stopTypes top stack =
        .error (.parseError curTok "")) ∧
    (∀ s : PassState, finalPop s = .ok ()) ∧
    (∀ (chain : List Tok) (s : PassState),
      processAll chain resetState = .ok s → ecmaProcess chain = .ok s) :=
  ⟨fun curTok stop top stack h =>
      popContextType_parseError curTok stop stack top h,
    finalPop_ok, ecmaProcess_of_processAll⟩

/-- Witness for claim C3: a pop for STATEMENT on the stack holding only the
ROOT context raises ParseError; the final pop and the whole pass on the
empty chain return normally. -/
theorem spec_c3_pop_error_semantics_witness :
    popContextType none [CtxType.STATEMENT] ⟨.ROOT, none, none⟩ [] =
      .error (.parseError none "") ∧
    finalPop resetState = .ok () ∧
    ecmaProcess [] = .ok resetState :=
  ⟨spec_c3_pop_error_semantics.1 none [CtxType.STATEMENT] ⟨.ROOT, none, none⟩
      [] (by decide),
    spec_c3_pop_error_semantics.2.1 resetState,
    spec_c3_pop_error_semantics.2.2 [] resetState rfl⟩

/-- Claim C4.  The claim states that for the file `if (x) foo();` the
context pass creates an IMPLIED_BLOCK wrapping `foo();` and sets the
implied-block flags.  As for claim C2, the pass instead throws a
ReferenceError out of `Token.isAnyType` already at the first token `if`,
because every non-semicolon token triggers a `searchExcept` whose predicate
reads the unbound identifier `token`. -/
theorem spec_c4_implied_block_crashes :
    ecmaProcess chainC4 = .error (.referenceError "token") := by
  rfl

/-- Claim C5.  The claim states that when the scope/state tracker pass
completes without a structural parse error, block depth, parenthesis depth
and the function-record stack are zero/empty at end of file.  The pass can
never complete: `_executePass` first calls the tracker reset, and
`JavaScriptStateTracker.prototype.reset` throws a TypeError because it looks
up `StateTracker.reset` as a static property of the constructor
(src/unnamed/part_003:51) while the method only exists on the prototype;
`handleToken` has the same undefined static lookup
(src/unnamed/part_003:143), so even a tracker that skipped reset would throw
at its first token. -/
theorem spec_c5_tracker_pass_crashes :
    (∀ chain : List Tok, jsExecutePass chain =
      .error (.typeError "cannot read call of undefined StateTracker.reset")) ∧
    (∀ (s : TrackerState) (t : Tok), jsStateTrackerHandleToken s t =
      .error
        (.typeError "cannot read call of undefined StateTracker.handleToken")) :=
  ⟨fun _ => rfl, fun _ _ => rfl⟩

/-- Claim C6.  The claim states that the navigation utilities never raise,
their only failure outcome being null/not-found.  In fact `search`,
`searchExcept` and `searchUntil` throw a ReferenceError as soon as they
inspect one token, because their predicates call `Token.isAnyType`
(src/common/tokens.js:69), whose body reads the unbound identifier `token`
instead of `this`. -/
theorem spec_c6_navigation_raises :
    (∀ (tokenTypes : List TokenType) (t : Tok) (rest : List Tok),
      search tokenTypes (t :: rest) = .error (.referenceError "token")) ∧
    (∀ (tokenTypes : List TokenType) (t : Tok) (rest : List Tok),
      searchExcept tokenTypes (t :: rest) = .error (.referenceError "token")) ∧
    (∀ (tokenTypes endTypes : List TokenType) (t : Tok) (rest : List Tok),
      searchUntil tokenTypes endTypes (t :: rest) =
        .error (.referenceError "token")) :=
  ⟨fun _ _ _ => rfl, fun _ _ _ => rfl, fun _ _ _ _ => rfl⟩

/-- Claim C7.  The claim states that `inTopLevel` returns true exactly when
the scope depth equals the parenthesis depth and never raises.  The method
body calls `this.paranthesesDepth()` (src/unnamed/part_003:65), a misspelling
of `parenthesesDepth` (src/unnamed/part_004:804); the property is undefined,
so the call throws a TypeError for every tracker state. -/
theorem spec_c7_inTopLevel_raises :
    ∀ s : TrackerState, jsInTopLevel s =
      .error (.typeError "this.paranthesesDepth is not a function") :=
  fun _ => rfl

/-- Claim C8.  The claim states that unmatched text gets the NORMAL kind
unless the current mode declares a different default kind, in which case
the declared kind (COMMENT for the documentation-comment modes) is used.
In fact `_createNormalToken` guards the override with
`_.contains(this.defaultTypes, mode)` (src/common/tokenizer.js:146), which
tests the dictionary VALUES (the type strings), never its keys (the mode
strings), so the guard never holds and every unmatched run is emitted as
NORMAL — even though the dictionary does declare COMMENT as the default
kind of the documentation-comment mode (second conjunct). -/
theorem spec_c8_default_type_never_applied :
    (∀ (m : JsMode) (s : List Char),
      (createNormalToken JAVASCRIPT_DEFAULT_TYPES m s).type = .NORMAL) ∧
    jsDictGet JAVASCRIPT_DEFAULT_TYPES .DOC_COMMENT_MODE = some .COMMENT := by
  refine ⟨?_, rfl⟩
  intro m s
  cases m <;> rfl

/-- Claim C9, counterexample.  The claim states that `getTargetToken` scans
forward past whitespace, comments and blank lines only.  Comments are not
skipped: when the token after the comment end is a COMMENT token followed by
an IDENTIFIER, the code returns null, whereas the scanning rule asserted by
the claim yields the identifier. -/
theorem spec_c9_comment_not_skipped :
    getTargetToken []
      [⟨.COMMENT, "c".data, 1, 0⟩, ⟨.IDENTIFIER, "foo".data, 1, 1⟩] =
      .ok none ∧
    getTargetTokenClaimScan
      [⟨.COMMENT, "c".data, 1, 0⟩, ⟨.IDENTIFIER, "foo".data, 1, 1⟩] =
      some ⟨.IDENTIFIER, "foo".data, 1, 1⟩ :=
  ⟨rfl, rfl⟩

/-- Claim C9, amended.  For a documentation comment without a fileoverview
flag, `getTargetToken` scans forward past whitespace, blank-line and
open-paren tokens only (not comments): after any run of such skippable
tokens it returns the first target-kind token (function name, identifier,
simple lvalue), and it returns null when a token of any other kind — other
than the specially handled `var` keyword and function-declaration tokens —
intervenes first. -/
theorem spec_c9_target_scan :
    (∀ (flags : List (List Char)) (skips : List Tok) (t : Tok)
        (rest : List Tok),
      hasFlag flags "fileoverview".data = false →
      (∀ x ∈ skips, SKIP_TYPES.contains x.type = true) →
      TARGET_TYPES.contains t.type = true →
      getTargetToken flags (skips ++ t :: rest) = .ok (some t)) ∧
    (∀ (flags : List (List Char)) (skips : List Tok) (t : Tok)
        (rest : List Tok),
      hasFlag flags "fileoverview".data = false →
      (∀ x ∈ skips, SKIP_TYPES.contains x.type = true) →
      SKIP_TYPES.contains t.type = false →
      TARGET_TYPES.contains t.type = false →
      t.isKeyword "var".data = false →
      (t.type == .FUNCTION_DECLARATION) = false →
      getTargetToken flags (skips ++ t :: rest) = .ok none) := by
  constructor
  · intro flags skips t rest hfo hsk ht
    unfold getTargetToken
    rw [hfo]
    simp only [Bool.false_eq_true, if_false]
    rw [getTargetTokenLoop_skips skips _ hsk, getTargetTokenLoop_target t rest ht]
  · intro flags skips t rest hfo hsk h1 h2 h3 h4
    unfold getTargetToken
    rw [hfo]
    simp only [Bool.false_eq_true, if_false]
    rw [getTargetTokenLoop_skips skips _ hsk,
      getTargetTokenLoop_stop t rest h1 h2 h3 h4]

/-- Witness for the amended claim C9: a whitespace token is skipped and the
identifier after it is returned. -/
theorem spec_c9_target_scan_witness :
    getTargetToken []
      [⟨.WHITESPACE, " ".data, 1, 0⟩, ⟨.IDENTIFIER, "x".data, 1, 1⟩] =
      .ok (some ⟨.IDENTIFIER, "x".data, 1, 1⟩) :=
  spec_c9_target_scan.1 [] [⟨.WHITESPACE, " ".data, 1, 0⟩]
    ⟨.IDENTIFIER, "x".data, 1, 1⟩ [] (by decide) (by decide) (by decide)

/-- Claim C10, counterexample.  The claim states that ordering tokens by
the pair of line number and start index, as `tokenUtil.compare` does, is a
strict total order on the token chain.  It is not: on the file `"//\rx"`
the line-comment matcher `ANYTHING = /.*/` matches the empty string at the
mid-line carriage return (only trailing terminators are stripped), emitting
a zero-length COMMENT token at start index 2, and the following whitespace
token `"\r"` receives the same start index, so `compare` returns 0 on two
distinct tokens of the chain.  `jsLineCommentStep` is the fragment of the
JavaScript matcher table exercised by this file. -/
theorem spec_c10_order_counterexample :
    tokenizeFile jsLineCommentStep [] .TEXT_MODE "//\rx".data =
      [⟨.START_SINGLE_LINE_COMMENT, "//".data, 1, 0⟩,
       ⟨.COMMENT, [], 1, 2⟩,
       ⟨.WHITESPACE, "\r".data, 1, 2⟩,
       ⟨.IDENTIFIER, "x".data, 1, 3⟩] ∧
    (⟨.COMMENT, [], 1, 2⟩ : Tok) ≠ ⟨.WHITESPACE, "\r".data, 1, 2⟩ ∧
    tokenCompare ⟨.COMMENT, [], 1, 2⟩ ⟨.WHITESPACE, "\r".data, 1, 2⟩ = 0 := by
  refine ⟨by decide, by decide, by decide⟩

/-- Claim C10, amended.  After tokenizing any file with any matcher table,
the tokens of each source line tile it: every token starts at the sum of
the lengths of the tokens emitted earlier on the same line, and the pairs
of line number and start index are non-decreasing along the chain, so
`tokenUtil.compare` never orders an earlier chain token after a later one.
The ordering is not strict: a matcher that matches the empty string (the
line-comment matcher `ANYTHING`, at a mid-line carriage return) emits a
zero-length token sharing its position with the next token, on which
`compare` returns 0. -/
theorem spec_c10_position_order (step : Step)
    (defaults : List (JsMode × TokenType)) (m0 : JsMode) (file : List Char) :
    (∀ n : Nat, tiled 0 ((tokenizeFile step defaults m0 file).filter
        (fun t => t.lineNumber == n))) ∧
    (tokenizeFile step defaults m0 file).Pairwise
      (fun a b => tokenCompare a b ≤ 0) := by
  constructor
  · intro n
    exact tiled_filter_line step defaults _ _ _ n
  · exact tokenizeLinesAux_mono step defaults _ _ _

end CL
